import Mathlib

/-!
Verification of the cursor-hls-forge knowledge base against its spec.

Shallow embedding of the three core components:
* the effectiveness aggregator (accumulate mode in
  `hls-knowledge-base/import_fir128_data.py::record_rule_effectiveness` and inline in
  `hls-knowledge-base/main.py::record_complete_iteration`; overwrite mode in
  `examples/fir128/import_fir128_data.py::record_rule_effectiveness`; the SQL upsert in
  `hls-knowledge-base/main.py::update_rule_effectiveness`),
* the rule matcher (`find_matching_rule` and the keyword LIKE loop in
  `record_complete_iteration`),
* the rollback tool (`examples/fir128/logger-rollback.py`).

Numeric averages are modelled over ℚ (the Python code uses floats; all claims are about
the exact arithmetic the formulas denote). Database rows are modelled as lists of
records; SQL point operations as list lookups/filters that respect list order
(modelling the row order the queries produce).
-/

/-- One `rules_effectiveness` row's statistics triple
(`times_applied`, `success_count`, `avg_ii_improvement`). -/
structure EffRow where
  times_applied : ℕ
  success_count : ℕ
  avg_ii_improvement : ℚ
  deriving Repr, DecidableEq

/-- `record_rule_effectiveness` from `hls-knowledge-base/import_fir128_data.py`
(lines 298-344), accumulate mode: `existing = none` models the absent row
(INSERT branch), `some r` the UPDATE branch. The same arithmetic appears inline in
`record_complete_iteration` (`main.py` lines 507-536). -/
def record_rule_effectiveness_accumulate (existing : Option EffRow)
    (success : Bool) (ii_improvement : ℚ) : EffRow :=
  match existing with
  | some r =>
      let new_times := r.times_applied + 1
      let new_success := r.success_count + (if success then 1 else 0)
      let old_avg := r.avg_ii_improvement
      let old_total := old_avg * r.success_count
      let new_total := old_total + (if success then ii_improvement else 0)
      let new_avg := if new_success > 0 then new_total / (new_success : ℚ) else 0
      ⟨new_times, new_success, new_avg⟩
  | none =>
      ⟨1, if success then 1 else 0, if success then ii_improvement else 0⟩

/-- `record_rule_effectiveness` from `examples/fir128/import_fir128_data.py`
(lines 324-369), overwrite mode: both the UPDATE branch (row exists) and the INSERT
branch (row absent) write the singleton statistics unconditionally. -/
def record_rule_effectiveness_overwrite (existing : Option EffRow)
    (success : Bool) (ii_improvement : ℚ) : EffRow :=
  match existing with
  | some _ => ⟨1, if success then 1 else 0, if success then ii_improvement else 0⟩
  | none => ⟨1, if success then 1 else 0, if success then ii_improvement else 0⟩

/-- A `rules_effectiveness` row as the `update_effectiveness` endpoint sees it:
`avg_ii_improvement` is nullable there (the INSERT binds `$4` directly, which may be
SQL NULL). -/
structure EffRowN where
  times_applied : ℕ
  success_count : ℕ
  avg_ii_improvement : Option ℚ
  deriving Repr, DecidableEq

/-- The SQL upsert of `update_rule_effectiveness` (`hls-knowledge-base/main.py`
lines 399-415): INSERT sets `(1, $3, $4)`; ON CONFLICT sets
`times_applied + 1`, `success_count + $3`, and, when `$4` is non-NULL,
`(COALESCE(avg,0) * times_applied + $4) / (times_applied + 1)`
(weighted by `times_applied`, not by `success_count`, and applied regardless of
`was_successful`); when `$4` is NULL the average is left unchanged. -/
def update_rule_effectiveness_upsert (existing : Option EffRowN)
    (was_successful : Bool) (ii_improvement : Option ℚ) : EffRowN :=
  match existing with
  | none =>
      ⟨1, if was_successful then 1 else 0, ii_improvement⟩
  | some r =>
      { times_applied := r.times_applied + 1
        success_count := r.success_count + (if was_successful then 1 else 0)
        avg_ii_improvement :=
          match ii_improvement with
          | some imp =>
              some (((r.avg_ii_improvement.getD 0) * r.times_applied + imp)
                / ((r.times_applied : ℚ) + 1))
          | none => r.avg_ii_improvement }

/-- A sequence of outcomes applied in accumulate mode, starting from a given
(possibly absent) row. -/
def applyAccumulate (st : Option EffRow) (outs : List (Bool × ℚ)) : Option EffRow :=
  outs.foldl (fun s o => some (record_rule_effectiveness_accumulate s o.1 o.2)) st

/-- Number of successful outcomes in a sequence. -/
def successCount (outs : List (Bool × ℚ)) : ℕ :=
  (outs.filter (fun o => o.1)).length

/-- Sum of the improvements of the successful outcomes. -/
def successSum (outs : List (Bool × ℚ)) : ℚ :=
  ((outs.filter (fun o => o.1)).map (fun o => o.2)).sum

/-- The statistics row the spec's accumulate property prescribes for a sequence of
outcomes applied to an initially absent row. -/
def specAccumulateRow (outs : List (Bool × ℚ)) : EffRow :=
  ⟨outs.length, successCount outs,
    if successCount outs = 0 then 0 else successSum outs / (successCount outs : ℚ)⟩

/-! ## Rollback tool (`examples/fir128/logger-rollback.py`) -/

/-- One entry of a rollback manifest (`inserted_records` item): table kind and record
identity. The human-readable `note` field is carried verbatim by the tool and never
inspected by any logic, so it is omitted from the embedding. -/
structure ManifestRecord where
  table : String
  id : String
  deriving Repr, DecidableEq

/-- `LoggerRollback.ROLLBACK_ORDER` (lines 48-54): the fixed child-before-parent
deletion order. -/
def ROLLBACK_ORDER : List String :=
  ["synthesis_results", "rules_effectiveness", "design_iterations",
   "design_patterns", "projects"]

/-- `LoggerRollback._determine_order` (lines 447-450): the declared order filtered to
the table kinds present in the manifest. -/
def determine_order (records : List ManifestRecord) : List String :=
  ROLLBACK_ORDER.filter (fun t => records.any (fun r => r.table == t))

/-- The per-record deletion sequence that both `_dry_run_rollback` and
`_execute_rollback` iterate (lines 404-409 and 423-433): for each table of
`_determine_order`, the manifest's records of that table in manifest order. -/
def deletion_plan (records : List ManifestRecord) : List ManifestRecord :=
  (determine_order records).flatMap (fun t => records.filter (fun r => r.table == t))

/-- Position of a table kind in the declared rollback order. -/
def orderIndex (t : String) : ℕ :=
  ROLLBACK_ORDER.indexOf t

/-- A database row of the Entity Store, as the rollback tool addresses it:
a table name and a record id. -/
structure DbRow where
  table : String
  id : String
  deriving Repr, DecidableEq

/-- The Entity Store's content, modelled as the list of its rows. -/
abbrev Db := List DbRow

/-- One `DELETE FROM {table} WHERE id = $1` against the modelled store: removes every
row of that table with that id; deleting an absent row is a no-op, as in Postgres. -/
def deleteById (db : Db) (r : ManifestRecord) : Except String Db :=
  Except.ok (db.filter (fun row => !(row.table == r.table && row.id == r.id)))

/-- A deletion that always fails, modelling a storage error (e.g. a remaining
foreign-key reference) raised by the Entity Store. -/
def failingDelete : Db → ManifestRecord → Except String Db :=
  fun _ _ => Except.error "foreign key violation"

/-- The sequence of deletions inside the transaction of `_execute_rollback`
(lines 423-433), threaded through an Entity Store deletion primitive `del`
(an external collaborator: it may fail). The first failure propagates, aborting the
rest — the exception leaves the `async with conn.transaction()` block. -/
def runDeletions (del : Db → ManifestRecord → Except String Db) :
    Db → List ManifestRecord → Except String Db
  | db, [] => Except.ok db
  | db, r :: rest =>
      match del db r with
      | Except.ok db2 => runDeletions del db2 rest
      | Except.error e => Except.error e

/-- The state the rollback command can change: the Entity Store content and the
manifest file's `rollback_status` field. -/
structure RollbackState where
  db : Db
  status : String
  deriving Repr, DecidableEq

/-- `LoggerRollback._execute_rollback` (lines 411-445): runs the ordered deletions as
one transaction. On success the log file is rewritten with status `completed`
(`_update_log_status`, lines 452-460) and the new store content committed; on any
failure the transaction is rolled back (the store keeps its prior content, the
transaction's atomicity being the Entity Store's contract) and the status file is not
touched. Returns the method's boolean result alongside the final state. -/
def execute_rollback (del : Db → ManifestRecord → Except String Db)
    (st : RollbackState) (records : List ManifestRecord) : Bool × RollbackState :=
  match runDeletions del st.db (deletion_plan records) with
  | Except.ok db2 => (true, ⟨db2, "completed"⟩)
  | Except.error _ => (false, st)

/-- Python's `str.strip().lower()` normalization of an interactive response, modelled
over the string's character list (leading and trailing whitespace removed, characters
lowercased). -/
def stripLower (s : String) : String :=
  String.mk
    (((((s.data.dropWhile Char.isWhitespace).reverse).dropWhile
        Char.isWhitespace).reverse).map Char.toLower)

/-- The confirmation test applied to interactive input in `rollback` (lines 346-347
and 360-361): `input().strip().lower() in ['y', 'yes']`. -/
def isAffirmative (s : String) : Bool :=
  stripLower s == "y" || stripLower s == "yes"

/-- `LoggerRollback.rollback` (lines 324-365): refuses a `completed` manifest unless
the operator confirms; in dry-run mode only previews (no state change); otherwise asks
for the pre-deletion confirmation and, when affirmative, executes. `overrideResp` is
the operator's answer to the already-rolled-back prompt (consulted only when the
status is `completed`), `proceedResp` the answer to the pre-deletion prompt (consulted
only outside dry-run mode). -/
def rollback_command (del : Db → ManifestRecord → Except String Db)
    (st : RollbackState) (records : List ManifestRecord)
    (dryRun : Bool) (overrideResp proceedResp : String) : Bool × RollbackState :=
  if st.status = "completed" ∧ ¬ isAffirmative overrideResp then
    (false, st)
  else if dryRun then
    (true, st)
  else if ¬ isAffirmative proceedResp then
    (false, st)
  else
    execute_rollback del st records

/-! ## Rule matching -/

/-- SQL `LOWER(...)` / Python `str.lower()`, over the character list. -/
def pyLower (s : String) : String :=
  String.mk (s.data.map Char.toLower)

/-- Python `str.upper()`, over the character list. -/
def pyUpper (s : String) : String :=
  String.mk (s.data.map Char.toUpper)

/-- An `hls_rules` row: identity, optional short code, full text, priority. -/
structure Rule where
  id : String
  rule_code : Option String
  rule_text : String
  priority : Int
  deriving Repr, DecidableEq

/-- `find_matching_rule` from `hls-knowledge-base/import_fir128_data.py`
(lines 254-296; textually identical in `examples/fir128/import_fir128_data.py`):
method 1 is exact `rule_code` equality, method 2 case-insensitive exact equality of
the full rule text (`LOWER(rule_text) = LOWER($1)`); otherwise `None`. The `keywords`
argument of the source is accepted and never used there, so it is not a parameter
here. `LIMIT 1` on an unordered SQL scan is modelled by `find?` over the table's row
list. -/
def find_matching_rule (rules : List Rule) (rule_code : Option String)
    (description : Option String) : Option Rule :=
  match rule_code.bind (fun c => rules.find? (fun r => r.rule_code == some c)) with
  | some r => some r
  | none =>
      description.bind
        (fun d => rules.find? (fun r => pyLower r.rule_text == pyLower d))

/-- `needle` occurs as a contiguous substring of `hay` (the semantics of SQL
`LIKE '%needle%'`), over character lists. -/
def containsSub (needle : List Char) : List Char → Bool
  | [] => needle.isEmpty
  | c :: t => needle.isPrefixOf (c :: t) || containsSub needle t

/-- The SQL query of `record_complete_iteration`'s rule loop (`main.py` lines
491-497): `WHERE LOWER(rule_text) LIKE '%keyword.lower()%' ORDER BY priority DESC
LIMIT 1`. The candidates are the rules whose lowercased text contains the lowercased
keyword as a substring; among them a row of maximal priority is returned (ties broken
by table order, modelling the unspecified SQL tie-break). -/
def like_query (rules : List Rule) (keyword : String) : Option Rule :=
  (rules.filter
      (fun r => containsSub (pyLower keyword).data (pyLower r.rule_text).data)).foldl
    (fun best r =>
      match best with
      | none => some r
      | some b => if r.priority > b.priority then some r else some b)
    none

/-- The keyword loop of `record_complete_iteration` (`main.py` lines 490-499):
try each keyword in order, first `like_query` hit wins. -/
def keyword_match (rules : List Rule) : List String → Option Rule
  | [] => none
  | k :: rest =>
      match like_query rules k with
      | some r => some r
      | none => keyword_match rules rest

/-! ## Iteration sequence numbering -/

/-- `SELECT COALESCE(MAX(iteration_number), 0) + 1 FROM design_iterations WHERE
project_id = $1` (`main.py` lines 169-173 and 447-451), applied to the list of the
project's existing iteration numbers. -/
def nextIterationNumber (existing : List ℕ) : ℕ :=
  existing.foldl max 0 + 1

/-! ## Manifest generation (`logger_by_project`, lines 76-168) -/

/-- A `projects` row (the columns the tool reads). `ptype` is the `type` column. -/
structure ProjectRow where
  id : String
  name : String
  ptype : String
  deriving Repr, DecidableEq

/-- A `design_iterations` row (the columns the tool reads). -/
structure IterationRow where
  id : String
  project_id : String
  iteration_number : ℕ
  deriving Repr, DecidableEq

/-- A `synthesis_results` row (the columns the tool reads). -/
structure SynthRow where
  id : String
  iteration_id : String
  ii_achieved : Int
  deriving Repr, DecidableEq

/-- A `rules_effectiveness` row as the logger addresses it (identity and context). -/
structure EffTableRow where
  id : String
  project_type : String
  deriving Repr, DecidableEq

/-- The Entity Store snapshot `logger_by_project` queries. Each table is its row
list; list order models the ordering the source's queries produce (`ORDER BY
created_at DESC` for the project lookup, insertion order elsewhere). -/
structure Snapshot where
  projects : List ProjectRow
  design_iterations : List IterationRow
  synthesis_results : List SynthRow
  rules_effectiveness : List EffTableRow
  deriving Repr, DecidableEq

/-- `LoggerRollback.logger_by_project` (lines 76-168), up to the file write: the
manifest's `inserted_records` list, or `none` when the project or its iterations are
missing. Mirrors the source: the project row is appended first, then per iteration
its row followed by its synthesis rows, then every `rules_effectiveness` row whose
`project_type` equals the project's type. `if iteration:` in Python treats `0` like
`None`, hence the `getD 0 ≠ 0` test. -/
def logger_by_project (db : Snapshot) (project_name : String)
    (iteration : Option ℕ) : Option (List ManifestRecord) :=
  match db.projects.find? (fun p => p.name == project_name) with
  | none => none
  | some project =>
      let iterations :=
        if iteration.getD 0 ≠ 0 then
          db.design_iterations.filter
            (fun it => it.project_id == project.id
              && it.iteration_number == iteration.getD 0)
        else
          db.design_iterations.filter (fun it => it.project_id == project.id)
      if iterations.isEmpty then none
      else
        some
          ([ManifestRecord.mk "projects" project.id]
            ++ iterations.flatMap (fun it =>
                ManifestRecord.mk "design_iterations" it.id ::
                  (db.synthesis_results.filter
                      (fun s => s.iteration_id == it.id)).map
                    (fun s => ManifestRecord.mk "synthesis_results" s.id))
            ++ (db.rules_effectiveness.filter
                  (fun r => r.project_type == project.ptype)).map
                (fun r => ManifestRecord.mk "rules_effectiveness" r.id))

/-! ## The complete-iteration endpoint (`main.py` lines 424-547) -/

/-- One element of `rules_applied` (`RuleApplication`, `main.py` lines 96-103):
`rule_keywords` defaults to `None` when the field is omitted. -/
structure RuleApplication where
  rule_code : Option String
  rule_keywords : Option (List String)
  rule_description : Option String
  previous_ii : Int
  current_ii : Int
  success : Bool
  deriving Repr, DecidableEq

/-- The `CompleteIterationCreate` request (`main.py` lines 105-111), restricted to the
fields the recorded rows and the claims depend on; the free-text iteration payload
(descriptions, code snapshot, prompts) is carried into the inserted row verbatim by
the source and never read back, so it is not modelled. -/
structure CompleteIterationCreate where
  project_id : String
  project_name : Option String
  project_type : String
  synthesis_ii_achieved : Int
  rules_applied : List RuleApplication
  deriving Repr, DecidableEq

/-- A `design_iterations` row of the API server's store; generated identities
(`uuid4()`) are modelled by numbers from a freshness counter. -/
structure KIterationRow where
  id : ℕ
  project_id : String
  iteration_number : ℕ
  deriving Repr, DecidableEq

/-- A `synthesis_results` row of the API server's store. -/
structure KSynthesisRow where
  id : ℕ
  iteration_id : ℕ
  ii_achieved : Int
  deriving Repr, DecidableEq

/-- A `rules_effectiveness` row of the API server's store, keyed by
`(rule_id, project_type)`. -/
structure KEffRow where
  rule_id : String
  project_type : String
  stats : EffRow
  deriving Repr, DecidableEq

/-- The API server's database state; `fresh` supplies the generated identities. -/
structure KbState where
  projects : List ProjectRow
  design_iterations : List KIterationRow
  synthesis_results : List KSynthesisRow
  rules_effectiveness : List KEffRow
  hls_rules : List Rule
  fresh : ℕ
  deriving Repr, DecidableEq

/-- `SELECT ... FROM rules_effectiveness WHERE rule_id = $1 AND project_type = $2`. -/
def effLookup (effs : List KEffRow) (rid ptype : String) : Option EffRow :=
  (effs.find? (fun e => e.rule_id == rid && e.project_type == ptype)).map
    (fun e => e.stats)

/-- The UPDATE-or-INSERT the endpoint performs on the statistics row for
`(rid, ptype)`. -/
def effUpsert (effs : List KEffRow) (rid ptype : String) (row : EffRow) :
    List KEffRow :=
  if effs.any (fun e => e.rule_id == rid && e.project_type == ptype) then
    effs.map (fun e =>
      if e.rule_id == rid && e.project_type == ptype then ⟨rid, ptype, row⟩ else e)
  else
    effs ++ [⟨rid, ptype, row⟩]

/-- The rule-effectiveness loop of `record_complete_iteration` (`main.py` lines
487-538): for each application, iterate `rule_app.rule_keywords` — when that field is
`None` the Python `for` raises `TypeError`, modelled as the error case; the
`rule_code` field is never consulted. On a keyword match, compute
`ii_improvement = previous_ii - current_ii`, reclassify
`success = success and ii_improvement > 0`, and fold the outcome into the statistics
row with the same arithmetic as accumulate mode (the source inlines it verbatim,
lines 507-536). -/
def processRuleApplications (rules : List Rule) (ptype : String) :
    List KEffRow → List RuleApplication → Except String (List KEffRow)
  | effs, [] => Except.ok effs
  | effs, app :: rest =>
      match app.rule_keywords with
      | none => Except.error "TypeError: NoneType object is not iterable"
      | some kws =>
          match keyword_match rules kws with
          | none => processRuleApplications rules ptype effs rest
          | some rule =>
              let ii_improvement : ℚ :=
                (app.previous_ii : ℚ) - (app.current_ii : ℚ)
              let success := app.success && decide ((0 : ℚ) < ii_improvement)
              let updated := record_rule_effectiveness_accumulate
                (effLookup effs rule.id ptype) success ii_improvement
              processRuleApplications rules ptype
                (effUpsert effs rule.id ptype updated) rest

/-- The body of `record_complete_iteration` (`main.py` lines 430-547), inside
`async with conn.transaction()`: ensure the project exists (auto-create with name
`project_name or f"{project_type.upper()}_Design"`), allocate the iteration number,
insert the iteration and synthesis rows, then run the rule-effectiveness loop. Any
exception escapes as the error case. -/
def record_complete_iteration (st : KbState) (data : CompleteIterationCreate) :
    Except String KbState :=
  let projects :=
    if st.projects.any (fun p => p.id == data.project_id) then st.projects
    else st.projects ++
      [⟨data.project_id,
        data.project_name.getD (pyUpper data.project_type ++ "_Design"),
        data.project_type⟩]
  let iteration_num := nextIterationNumber
    ((st.design_iterations.filter (fun it => it.project_id == data.project_id)).map
      (fun it => it.iteration_number))
  let iteration_id := st.fresh
  let iters := st.design_iterations ++
    [⟨iteration_id, data.project_id, iteration_num⟩]
  let result_id := st.fresh + 1
  let synths := st.synthesis_results ++
    [⟨result_id, iteration_id, data.synthesis_ii_achieved⟩]
  match processRuleApplications st.hls_rules data.project_type
      st.rules_effectiveness data.rules_applied with
  | Except.error e => Except.error e
  | Except.ok effs =>
      Except.ok
        { st with
          projects := projects
          design_iterations := iters
          synthesis_results := synths
          rules_effectiveness := effs
          fresh := st.fresh + 2 }

/-- The endpoint as observed through the Entity Store: the transaction commits the
new state on success and rolls every write back on an exception, leaving the state
exactly as before (`async with conn.transaction()` semantics). -/
def complete_iteration_endpoint (st : KbState) (data : CompleteIterationCreate) :
    KbState :=
  match record_complete_iteration st data with
  | Except.ok st2 => st2
  | Except.error _ => st

/-! ## Concrete fixtures used by witnesses and counterexamples -/

/-- A curated rule, as ingested for the FIR128 experiment. -/
def demoRule : Rule :=
  ⟨"r1", some "P001", "Merge related operations into single loops", 8⟩

/-- Snapshot of the FIR128 scenario of spec §8: one project, three iterations with
synthesis results II = 264, 134, 128, one effectiveness row for context `fir`. -/
def fir128Snapshot : Snapshot :=
  { projects := [⟨"p1", "FIR128_Optimization_Demo", "fir"⟩]
    design_iterations := [⟨"i1", "p1", 1⟩, ⟨"i2", "p1", 2⟩, ⟨"i3", "p1", 3⟩]
    synthesis_results := [⟨"s1", "i1", 264⟩, ⟨"s2", "i2", 134⟩, ⟨"s3", "i3", 128⟩]
    rules_effectiveness := [⟨"e1", "fir"⟩] }

/-- The manifest `logger_by_project` generates for iteration 3 of that snapshot. -/
def fir128Iter3Manifest : List ManifestRecord :=
  [⟨"projects", "p1"⟩, ⟨"design_iterations", "i3"⟩,
   ⟨"synthesis_results", "s3"⟩, ⟨"rules_effectiveness", "e1"⟩]

/-- A rule application whose `rule_keywords` field was omitted (`None`), though it
carries a valid rule code. -/
def demoBadApp : RuleApplication :=
  ⟨some "P001", none, some "Merge related operations into single loops", 264, 134, true⟩

/-- A complete-iteration request containing `demoBadApp`. -/
def demoRequest : CompleteIterationCreate :=
  ⟨"proj-1", some "FIR128", "fir", 134, [demoBadApp]⟩

/-- An API-server state holding the demo rule and nothing else. -/
def demoKbState : KbState :=
  ⟨[], [], [], [], [demoRule], 0⟩

/-! ## C7 — overwrite mode is last-write-wins -/

/-- C7: one overwrite-mode application leaves the row at exactly the singleton
statistics of its outcome, for any prior state; hence two applications in sequence
end in the state determined solely by the second outcome. -/
theorem C7_overwrite_last_write_wins (prior : Option EffRow) (s1 s2 : Bool)
    (i1 i2 : ℚ) :
    record_rule_effectiveness_overwrite prior s2 i2
      = ⟨1, if s2 then 1 else 0, if s2 then i2 else 0⟩ ∧
    record_rule_effectiveness_overwrite
        (some (record_rule_effectiveness_overwrite prior s1 i1)) s2 i2
      = record_rule_effectiveness_overwrite none s2 i2 := by
  cases prior <;> exact ⟨rfl, rfl⟩

/-! ## C9 — iteration sequence numbering -/

theorem foldl_max_init_le (l : List ℕ) (a : ℕ) : a ≤ l.foldl max a := by
  induction l generalizing a with
  | nil => exact le_refl a
  | cons h t ih => exact le_trans (le_max_left a h) (ih (max a h))

theorem mem_le_foldl_max : ∀ (l : List ℕ) (a m : ℕ), m ∈ l → m ≤ l.foldl max a
  | [], _, _, h => absurd h (List.not_mem_nil _)
  | x :: t, a, m, h => by
      cases h with
      | head => exact le_trans (le_max_right a x) (foldl_max_init_le t (max a x))
      | tail _ hm => exact mem_le_foldl_max t (max a x) m hm

/-- C9 (amended): a newly assigned sequence number is `max(existing) + 1`, hence
strictly greater than every number currently present for the project — unique among
live iterations and strictly increasing as long as nothing is deleted. (The
never-reused-after-deletion part of the claim fails, see the counterexample.) -/
theorem C9_sequence_number_fresh (existing : List ℕ) (m : ℕ) (hm : m ∈ existing) :
    m < nextIterationNumber existing ∧
    nextIterationNumber existing = existing.foldl max 0 + 1 :=
  ⟨Nat.lt_succ_of_le (mem_le_foldl_max existing 0 m hm), rfl⟩

/-- C9 counterexample: a project holds iterations numbered 1 and 2; after the
iteration numbered 2 is deleted, the next created iteration is assigned
`max {1} + 1 = 2` — a number that had already been used. The assignment is not a
monotonic counter. -/
theorem C9_counterexample :
    nextIterationNumber [1, 2] = 3 ∧
    nextIterationNumber [1] = 2 ∧ 2 ∈ [1, 2] := by
  refine ⟨rfl, rfl, by decide⟩

/-- Witness for C9: applied to the concrete number list `[1, 2]`. -/
theorem C9_witness : 2 < nextIterationNumber [1, 2] :=
  (C9_sequence_number_fresh [1, 2] 2 (by decide)).1

/-! ## C3 — rollback execution is atomic -/

/-- C3: the deletion sequence runs as one Entity Store transaction; when any single
deletion fails, `_execute_rollback` returns failure with the store's content exactly
as before and the manifest status file untouched (the `completed` rewrite only
happens on the success path). -/
theorem C3_transaction_atomic (del : Db → ManifestRecord → Except String Db)
    (st : RollbackState) (records : List ManifestRecord) (e : String)
    (h : runDeletions del st.db (deletion_plan records) = Except.error e) :
    execute_rollback del st records = (false, st) := by
  simp [execute_rollback, h]

/-- Witness for C3: a deletion that fails on a one-entry manifest leaves the store
row and the `pending` status in place. -/
theorem C3_witness :
    execute_rollback failingDelete ⟨[⟨"projects", "p1"⟩], "pending"⟩
        [⟨"projects", "p1"⟩]
      = (false, ⟨[⟨"projects", "p1"⟩], "pending"⟩) :=
  C3_transaction_atomic failingDelete ⟨[⟨"projects", "p1"⟩], "pending"⟩
    [⟨"projects", "p1"⟩] "foreign key violation" rfl

/-! ## C4 — unknown table kinds -/

/-- C4 counterexample: a manifest holding an entry of the unknown table kind
`user_prompts` next to a `projects` entry is not rejected: `_determine_order`
silently drops the unknown kind, and executing the rollback deletes the `projects`
row and reports success — no UnknownDependency error, no abort. -/
theorem C4_counterexample :
    determine_order [⟨"user_prompts", "u1"⟩, ⟨"projects", "p1"⟩] = ["projects"] ∧
    execute_rollback deleteById ⟨[⟨"projects", "p1"⟩], "pending"⟩
        [⟨"user_prompts", "u1"⟩, ⟨"projects", "p1"⟩]
      = (true, ⟨[], "completed"⟩) := by
  exact ⟨rfl, rfl⟩

/-- C4 (amended): an entry whose table kind is absent from the declared rollback
order is silently omitted from the deletion plan — it is neither appended nor
reported — while every entry of a declared kind is still planned for deletion. -/
theorem C4_unknown_kind_skipped (records : List ManifestRecord) :
    (∀ r ∈ deletion_plan records, r.table ∈ ROLLBACK_ORDER) ∧
    (∀ r ∈ records, r.table ∈ ROLLBACK_ORDER → r ∈ deletion_plan records) := by
  constructor
  · intro r hr
    simp only [deletion_plan, determine_order, List.mem_flatMap, List.mem_filter]
      at hr
    obtain ⟨t, ⟨ht, _⟩, _, hrt⟩ := hr
    exact (beq_iff_eq.mp hrt) ▸ ht
  · intro r hr ht
    simp only [deletion_plan, determine_order, List.mem_flatMap, List.mem_filter,
      List.any_eq_true]
    exact ⟨r.table, ⟨ht, r, hr, beq_self_eq_true _⟩, hr, beq_self_eq_true _⟩

/-- Witness for C4's amended theorem: in the mixed manifest, the `projects` entry is
in the deletion plan. -/
theorem C4_witness :
    ManifestRecord.mk "projects" "p1"
      ∈ deletion_plan [⟨"user_prompts", "u1"⟩, ⟨"projects", "p1"⟩] :=
  (C4_unknown_kind_skipped [⟨"user_prompts", "u1"⟩, ⟨"projects", "p1"⟩]).2
    ⟨"projects", "p1"⟩ (by decide) (by decide)

/-! ## C6 — rule matching precision -/

/-- C6 (amended, curated path): whenever `find_matching_rule` returns a rule, that
rule carries exactly the given code, or its full text equals the given description
case-insensitively — never a mere substring match. (This exactness does not hold for
the complete-iteration endpoint's keyword path, see the counterexample.) -/
theorem C6_exact_match_precision (rules : List Rule) (code desc : Option String)
    (r : Rule) (h : find_matching_rule rules code desc = some r) :
    (∃ c, code = some c ∧ r.rule_code = some c) ∨
    (∃ d, desc = some d ∧ pyLower r.rule_text = pyLower d) := by
  unfold find_matching_rule at h
  cases hf : code.bind (fun c => rules.find? (fun r => r.rule_code == some c)) with
  | some q =>
      rw [hf] at h
      have hq : q = r := Option.some.inj h
      obtain ⟨c, hc, hfind⟩ := Option.bind_eq_some.mp hf
      have hqp := List.find?_some hfind
      exact Or.inl ⟨c, hc, hq ▸ beq_iff_eq.mp hqp⟩
  | none =>
      rw [hf] at h
      obtain ⟨d, hd, hfind⟩ := Option.bind_eq_some.mp h
      have hqp := List.find?_some hfind
      exact Or.inr ⟨d, hd, beq_iff_eq.mp hqp⟩

/-- C6 counterexample: with no usable rule code, the keyword `merge` — a substring
of the demo rule's text but not an exact match of it — resolves to that rule in the
complete-iteration endpoint's path, while the exact matcher returns NotFound; so not
every code path is exact, and the returned rule's text is not the given text. -/
theorem C6_counterexample :
    keyword_match [demoRule] ["merge"] = some demoRule ∧
    find_matching_rule [demoRule] none (some "merge") = none ∧
    demoRule.rule_text ≠ "merge" ∧ demoRule.rule_code ≠ some "merge" := by
  exact ⟨by decide, by decide, by decide, by decide⟩

/-- Witness for C6's amended theorem: matching by the code `P001` returns the rule
carrying exactly that code. -/
theorem C6_witness : demoRule.rule_code = some "P001" := by
  rcases C6_exact_match_precision [demoRule] (some "P001") none demoRule (by decide)
    with ⟨c, hc, hrc⟩ | ⟨d, hd, _⟩
  · cases Option.some.inj hc
    exact hrc
  · exact Option.noConfusion hd

/-! ## C8 — iteration-scoped manifest scope -/

/-- C8 (amended): a manifest generated for one iteration number references that
iteration's DesignIteration row and its SynthesisResult rows and no other
iteration's — but it also references the Project row itself and every
RuleEffectiveness row of the project's type, so rolling it back deletes those too
(the claim's "does not delete the Project row" fails; see the counterexample). -/
theorem C8_iteration_scoped_manifest (db : Snapshot) (project_name : String)
    (n : ℕ) (p : ProjectRow) (recs : List ManifestRecord) (hn : n ≠ 0)
    (hp : db.projects.find? (fun q => q.name == project_name) = some p)
    (hr : logger_by_project db project_name (some n) = some recs) :
    ManifestRecord.mk "projects" p.id ∈ recs ∧
    (∀ r ∈ recs, r.table = "design_iterations" →
      ∃ it ∈ db.design_iterations,
        it.id = r.id ∧ it.project_id = p.id ∧ it.iteration_number = n) ∧
    (∀ r ∈ recs, r.table = "synthesis_results" →
      ∃ s ∈ db.synthesis_results, s.id = r.id ∧
        ∃ it ∈ db.design_iterations,
          it.project_id = p.id ∧ it.iteration_number = n
            ∧ s.iteration_id = it.id) ∧
    (∀ r ∈ recs, r.table = "rules_effectiveness" →
      ∃ e ∈ db.rules_effectiveness, e.id = r.id ∧ e.project_type = p.ptype) := by
  unfold logger_by_project at hr
  rw [hp] at hr
  simp only [Option.getD_some, ne_eq, hn, not_false_eq_true, if_true] at hr
  split at hr
  · exact Option.noConfusion hr
  · have hrecs := (Option.some.inj hr).symm
    subst hrecs
    refine ⟨by simp, ?_, ?_, ?_⟩
    · intro r hrm htab
      rcases List.mem_append.mp hrm with h1 | h2
      · rcases List.mem_append.mp h1 with h0 | hflat
        · rw [List.mem_singleton.mp h0] at htab
          simp at htab
        · obtain ⟨it, hitm, hin⟩ := List.mem_flatMap.mp hflat
          obtain ⟨hitmem, hcond⟩ := List.mem_filter.mp hitm
          rw [Bool.and_eq_true] at hcond
          rcases List.mem_cons.mp hin with hrm' | hmap
          · exact ⟨it, hitmem, by rw [hrm'], beq_iff_eq.mp hcond.1,
              beq_iff_eq.mp hcond.2⟩
          · obtain ⟨s, hsm, hseq⟩ := List.mem_map.mp hmap
            rw [← hseq] at htab
            simp at htab
      · obtain ⟨e, hem, heeq⟩ := List.mem_map.mp h2
        rw [← heeq] at htab
        simp at htab
    · intro r hrm htab
      rcases List.mem_append.mp hrm with h1 | h2
      · rcases List.mem_append.mp h1 with h0 | hflat
        · rw [List.mem_singleton.mp h0] at htab
          simp at htab
        · obtain ⟨it, hitm, hin⟩ := List.mem_flatMap.mp hflat
          obtain ⟨hitmem, hcond⟩ := List.mem_filter.mp hitm
          rw [Bool.and_eq_true] at hcond
          rcases List.mem_cons.mp hin with hrm' | hmap
          · rw [hrm'] at htab
            simp at htab
          · obtain ⟨s, hsm, hseq⟩ := List.mem_map.mp hmap
            obtain ⟨hsmem, hscond⟩ := List.mem_filter.mp hsm
            exact ⟨s, hsmem, by rw [← hseq], it, hitmem,
              beq_iff_eq.mp hcond.1, beq_iff_eq.mp hcond.2,
              beq_iff_eq.mp hscond⟩
      · obtain ⟨e, hem, heeq⟩ := List.mem_map.mp h2
        rw [← heeq] at htab
        simp at htab
    · intro r hrm htab
      rcases List.mem_append.mp hrm with h1 | h2
      · rcases List.mem_append.mp h1 with h0 | hflat
        · rw [List.mem_singleton.mp h0] at htab
          simp at htab
        · obtain ⟨it, hitm, hin⟩ := List.mem_flatMap.mp hflat
          rcases List.mem_cons.mp hin with hrm' | hmap
          · rw [hrm'] at htab
            simp at htab
          · obtain ⟨s, hsm, hseq⟩ := List.mem_map.mp hmap
            rw [← hseq] at htab
            simp at htab
      · obtain ⟨e, hem, heeq⟩ := List.mem_map.mp h2
        obtain ⟨hemem, hecond⟩ := List.mem_filter.mp hem
        exact ⟨e, hemem, by rw [← heeq], beq_iff_eq.mp hecond⟩

/-- C8 counterexample: in the spec §8 scenario (project with iterations 1, 2, 3),
the manifest generated for iteration 3 contains the Project row (and the
effectiveness row for context `fir`), and executing its rollback deletes the
Project row — contradicting "does not delete the Project row, which is not
referenced by this manifest". Iterations 1 and 2 survive. -/
theorem C8_counterexample :
    logger_by_project fir128Snapshot "FIR128_Optimization_Demo" (some 3)
      = some fir128Iter3Manifest ∧
    ManifestRecord.mk "projects" "p1" ∈ fir128Iter3Manifest ∧
    (execute_rollback deleteById
        ⟨[⟨"projects", "p1"⟩, ⟨"design_iterations", "i1"⟩,
          ⟨"design_iterations", "i2"⟩, ⟨"design_iterations", "i3"⟩,
          ⟨"synthesis_results", "s1"⟩, ⟨"synthesis_results", "s2"⟩,
          ⟨"synthesis_results", "s3"⟩, ⟨"rules_effectiveness", "e1"⟩],
          "pending"⟩
        fir128Iter3Manifest)
      = (true,
          ⟨[⟨"design_iterations", "i1"⟩, ⟨"design_iterations", "i2"⟩,
            ⟨"synthesis_results", "s1"⟩, ⟨"synthesis_results", "s2"⟩],
            "completed"⟩) := by
  exact ⟨by decide, by decide, by decide⟩

/-- Witness for C8's amended theorem: the iteration-3 manifest of the FIR128
snapshot contains the Project row. -/
theorem C8_witness :
    ManifestRecord.mk "projects" "p1" ∈ fir128Iter3Manifest :=
  (C8_iteration_scoped_manifest fir128Snapshot "FIR128_Optimization_Demo" 3
    ⟨"p1", "FIR128_Optimization_Demo", "fir"⟩ fir128Iter3Manifest
    (by decide) (by decide) (by decide)).1

/-! ## C10 — missing keyword list aborts the whole recording -/

theorem processRuleApplications_error (rules : List Rule) (ptype : String) :
    ∀ (apps : List RuleApplication) (effs : List KEffRow)
      (app : RuleApplication), app ∈ apps → app.rule_keywords = none →
      (processRuleApplications rules ptype effs apps).toOption = none
  | [], _, _, hmem, _ => absurd hmem (List.not_mem_nil _)
  | a :: rest, effs, app, hmem, hk => by
      cases ha : a.rule_keywords with
      | none => simp [processRuleApplications, ha, Except.toOption]
      | some kws =>
          have hmem' : app ∈ rest := by
            cases List.mem_cons.mp hmem with
            | inl h => rw [h] at hk; rw [hk] at ha; exact Option.noConfusion ha
            | inr h => exact h
          cases hm : keyword_match rules kws with
          | none =>
              simp only [processRuleApplications, ha, hm]
              exact processRuleApplications_error rules ptype rest effs app
                hmem' hk
          | some rule =>
              simp only [processRuleApplications, ha, hm]
              exact processRuleApplications_error rules ptype rest _ app
                hmem' hk

/-- C10: when any listed rule application omits its keyword list, the matching loop
raises (`for keyword in None`), the transaction aborts, and none of the request's
writes — project, iteration, synthesis result, effectiveness updates — persist,
even when the application carries a valid rule code. -/
theorem C10_missing_keywords_abort (st : KbState)
    (data : CompleteIterationCreate) (app : RuleApplication)
    (hmem : app ∈ data.rules_applied) (hk : app.rule_keywords = none) :
    (record_complete_iteration st data).toOption = none ∧
    complete_iteration_endpoint st data = st := by
  have herr := processRuleApplications_error st.hls_rules data.project_type
    data.rules_applied st.rules_effectiveness app hmem hk
  cases hres : processRuleApplications st.hls_rules data.project_type
      st.rules_effectiveness data.rules_applied with
  | ok effs => rw [hres] at herr; exact Option.noConfusion herr
  | error e =>
      constructor
      · simp [record_complete_iteration, hres, Except.toOption]
      · simp [complete_iteration_endpoint, record_complete_iteration, hres]

/-- Witness for C10: the request holding `demoBadApp` (valid code `P001`, keywords
omitted) leaves the demo state untouched. -/
theorem C10_witness : complete_iteration_endpoint demoKbState demoRequest
    = demoKbState :=
  (C10_missing_keywords_abort demoKbState demoRequest demoBadApp
    (by decide) rfl).2

/-! ## C1 — accumulate-mode aggregation -/

theorem successCount_append (l : List (Bool × ℚ)) (s : Bool) (i : ℚ) :
    successCount (l ++ [(s, i)])
      = successCount l + (if s then 1 else 0) := by
  cases s <;> simp [successCount, List.filter_append]

theorem successSum_append (l : List (Bool × ℚ)) (s : Bool) (i : ℚ) :
    successSum (l ++ [(s, i)]) = successSum l + (if s then i else 0) := by
  cases s <;> simp [successSum, List.filter_append]

theorem successSum_of_count_zero (l : List (Bool × ℚ))
    (h : successCount l = 0) : successSum l = 0 := by
  have : l.filter (fun o => o.1) = [] := List.eq_nil_of_length_eq_zero h
  simp [successSum, this]

/-- Folding one more outcome into the row that summarizes `pre` yields the row that
summarizes `pre ++ [(s, i)]`. -/
theorem accumulate_step (pre : List (Bool × ℚ)) (s : Bool) (i : ℚ) :
    record_rule_effectiveness_accumulate (some (specAccumulateRow pre)) s i
      = specAccumulateRow (pre ++ [(s, i)]) := by
  have hc := successCount_append pre s i
  have hs := successSum_append pre s i
  by_cases h0 : successCount pre = 0
  · have hsum := successSum_of_count_zero pre h0
    cases s
    · simp [record_rule_effectiveness_accumulate, specAccumulateRow, hc, hs, h0,
        hsum]
    · simp [record_rule_effectiveness_accumulate, specAccumulateRow, hc, hs, h0,
        hsum]
  · have hne : ((successCount pre : ℚ)) ≠ 0 := Nat.cast_ne_zero.mpr h0
    cases s
    · simp [record_rule_effectiveness_accumulate, specAccumulateRow, hc, hs, h0,
        Nat.pos_of_ne_zero h0, div_mul_cancel₀ _ hne]
    · simp [record_rule_effectiveness_accumulate, specAccumulateRow, hc, hs, h0,
        Nat.pos_of_ne_zero h0, div_mul_cancel₀ _ hne]

/-- The first outcome applied to the absent row yields the one-element summary. -/
theorem accumulate_base (s : Bool) (i : ℚ) :
    record_rule_effectiveness_accumulate none s i = specAccumulateRow [(s, i)] := by
  cases s <;> simp [record_rule_effectiveness_accumulate, specAccumulateRow,
    successCount, successSum]

theorem applyAccumulate_spec (outs : List (Bool × ℚ)) :
    ∀ pre : List (Bool × ℚ),
      applyAccumulate (some (specAccumulateRow pre)) outs
        = some (specAccumulateRow (pre ++ outs)) := by
  induction outs with
  | nil => intro pre; simp [applyAccumulate]
  | cons o rest ih =>
      intro pre
      have h1 : applyAccumulate (some (specAccumulateRow pre)) (o :: rest)
          = applyAccumulate
              (some (record_rule_effectiveness_accumulate
                (some (specAccumulateRow pre)) o.1 o.2)) rest := rfl
      rw [h1, accumulate_step pre o.1 o.2]
      have h2 := ih (pre ++ [(o.1, o.2)])
      simpa using h2

/-- C1 (amended): the import script's accumulate path (`record_rule_effectiveness`
of `hls-knowledge-base/import_fir128_data.py`, whose arithmetic the
complete-iteration endpoint inlines verbatim), applied N times to an initially
absent (rule, context) row, produces `times_applied = N`, `success_count` = the
number of successful outcomes, and `avg_ii_improvement` = the mean improvement over
the successful applications only (0 when none succeeded). The
`update_effectiveness` API endpoint does not satisfy this — see the
counterexample. -/
theorem C1_accumulate_statistics (outs : List (Bool × ℚ)) (h : outs ≠ []) :
    applyAccumulate none outs = some (specAccumulateRow outs) := by
  match outs, h with
  | o :: rest, _ =>
      have h1 : applyAccumulate none (o :: rest)
          = applyAccumulate
              (some (record_rule_effectiveness_accumulate none o.1 o.2)) rest := rfl
      rw [h1, accumulate_base o.1 o.2]
      simpa using applyAccumulate_spec rest [(o.1, o.2)]

/-- C1 counterexample: one accumulate-mode outcome (unsuccessful, improvement 5)
pushed through the `update_effectiveness` endpoint's SQL upsert leaves
`avg_ii_improvement = 5` on the fresh row, where the claim's formula — satisfied by
the import path's fresh-row branch — requires 0 because there are no successes. -/
theorem C1_counterexample :
    update_rule_effectiveness_upsert none false (some 5) = ⟨1, 0, some 5⟩ ∧
    specAccumulateRow [(false, 5)] = ⟨1, 0, 0⟩ ∧ (5 : ℚ) ≠ 0 := by
  refine ⟨by simp [update_rule_effectiveness_upsert], ?_, by norm_num⟩
  simp [specAccumulateRow, successCount, successSum]

/-- Witness for C1's amended theorem: the spec §8 scenario — outcomes
`(true, 130)` then `(true, 6)` on a fresh row. -/
theorem C1_witness :
    applyAccumulate none [(true, 130), (true, 6)]
      = some (specAccumulateRow [(true, 130), (true, 6)]) :=
  C1_accumulate_statistics [(true, 130), (true, 6)] (by decide)

/-! ## C2 — rollback deletion order -/

theorem pairwise_plan (records : List ManifestRecord) :
    ∀ kinds : List String,
      kinds.Pairwise (fun a b => orderIndex a < orderIndex b) →
      (kinds.flatMap (fun t => records.filter (fun r => r.table == t))).Pairwise
        (fun a b => orderIndex a.table ≤ orderIndex b.table)
  | [], _ => by simp
  | k :: rest, hp => by
      rw [List.flatMap_cons]
      rcases List.pairwise_cons.mp hp with ⟨hk, hrest⟩
      refine List.pairwise_append.mpr
        ⟨?_, pairwise_plan records rest hrest, ?_⟩
      · refine List.pairwise_of_forall_mem_list ?_
        intro a ha b hb
        rw [beq_iff_eq.mp (List.mem_filter.mp ha).2,
          beq_iff_eq.mp (List.mem_filter.mp hb).2]
      · intro a ha b hb
        obtain ⟨t, htrest, hbt⟩ := List.mem_flatMap.mp hb
        rw [beq_iff_eq.mp (List.mem_filter.mp ha).2,
          beq_iff_eq.mp (List.mem_filter.mp hbt).2]
        exact le_of_lt (hk t htrest)

theorem plan_filter_eq (records : List ManifestRecord) (t : String) :
    ∀ kinds : List String, kinds.Nodup →
      ((∃ r ∈ records, r.table = t) → t ∈ kinds) →
      (kinds.flatMap (fun k => records.filter (fun r => r.table == k))).filter
          (fun r => r.table == t)
        = records.filter (fun r => r.table == t)
  | [], _, hmem => by
      simp only [List.flatMap_nil, List.filter_nil]
      symm
      rw [List.filter_eq_nil_iff]
      intro r hr hrt
      exact absurd (hmem ⟨r, hr, beq_iff_eq.mp hrt⟩) (List.not_mem_nil t)
  | k :: kinds, hnd, hmem => by
      rw [List.flatMap_cons, List.filter_append]
      rcases List.nodup_cons.mp hnd with ⟨hk, hnd'⟩
      by_cases htk : t = k
      · subst htk
        have h1 : (records.filter (fun r => r.table == t)).filter
            (fun r => r.table == t) = records.filter (fun r => r.table == t) := by
          rw [List.filter_filter]
          simp
        have h2 : (kinds.flatMap
              (fun k => records.filter (fun r => r.table == k))).filter
            (fun r => r.table == t) = [] := by
          rw [List.filter_eq_nil_iff]
          intro r hr hrt
          obtain ⟨k', hk', hrk'⟩ := List.mem_flatMap.mp hr
          have e1 : r.table = t := beq_iff_eq.mp hrt
          have e2 : r.table = k' := beq_iff_eq.mp (List.mem_filter.mp hrk').2
          apply hk
          rw [e1.symm.trans e2]
          exact hk'
        rw [h1, h2, List.append_nil]
      · have h1 : (records.filter (fun r => r.table == k)).filter
            (fun r => r.table == t) = [] := by
          rw [List.filter_eq_nil_iff]
          intro r hr hrt
          have e1 : r.table = t := beq_iff_eq.mp hrt
          have e2 : r.table = k := beq_iff_eq.mp (List.mem_filter.mp hr).2
          exact htk (e1.symm.trans e2)
        rw [h1, List.nil_append]
        refine plan_filter_eq records t kinds hnd' (fun hex => ?_)
        rcases List.mem_cons.mp (hmem hex) with h | h
        · exact absurd h htk
        · exact h

/-- C2: for a manifest all of whose entries are of declared table kinds, the deletion
plan lists exactly the distinct kinds present, in the fixed child-before-parent
order (positions in `ROLLBACK_ORDER` are non-decreasing along the plan — so every
`synthesis_results` entry precedes every `design_iterations` entry, which precedes
every `projects` entry, whatever the manifest order), and within one table kind the
records keep their manifest order. -/
theorem C2_deletion_order (records : List ManifestRecord)
    (h : ∀ r ∈ records, r.table ∈ ROLLBACK_ORDER) :
    ((determine_order records).Nodup ∧
      (∀ t, t ∈ determine_order records ↔ ∃ r ∈ records, r.table = t)) ∧
    (deletion_plan records).Pairwise
      (fun a b => orderIndex a.table ≤ orderIndex b.table) ∧
    (∀ t, (deletion_plan records).filter (fun r => r.table == t)
        = records.filter (fun r => r.table == t)) := by
  refine ⟨⟨List.Nodup.filter _ (by decide), ?_⟩, ?_, ?_⟩
  · intro t
    constructor
    · intro ht
      rcases List.mem_filter.mp ht with ⟨_, hany⟩
      rcases List.any_eq_true.mp hany with ⟨r, hr, hrt⟩
      exact ⟨r, hr, beq_iff_eq.mp hrt⟩
    · rintro ⟨r, hr, hrt⟩
      refine List.mem_filter.mpr
        ⟨hrt ▸ h r hr, List.any_eq_true.mpr ⟨r, hr, ?_⟩⟩
      rw [hrt]
      exact beq_self_eq_true t
  · exact pairwise_plan records (determine_order records)
      ((show ROLLBACK_ORDER.Pairwise
          (fun a b => orderIndex a < orderIndex b) by decide).sublist
        (List.filter_sublist _))
  · intro t
    refine plan_filter_eq records t (determine_order records)
      (List.Nodup.filter _ (by decide)) (fun hex => ?_)
    rcases hex with ⟨r, hr, hrt⟩
    refine List.mem_filter.mpr
      ⟨hrt ▸ h r hr, List.any_eq_true.mpr ⟨r, hr, ?_⟩⟩
    rw [hrt]
    exact beq_self_eq_true t

/-- Witness for C2: the two-entry manifest listed parent-first is planned
child-first. -/
theorem C2_witness :
    (deletion_plan [⟨"projects", "p"⟩, ⟨"synthesis_results", "s"⟩]).Pairwise
      (fun a b => orderIndex a.table ≤ orderIndex b.table) :=
  (C2_deletion_order [⟨"projects", "p"⟩, ⟨"synthesis_results", "s"⟩]
    (by decide)).2.1

/-! ## C5 — completed manifests are terminal, confirmations default to refusal -/

/-- C5: invoking `rollback` on a `completed` manifest with a non-affirmative override
answer is refused with the store and the manifest untouched; a pending manifest's
pre-deletion confirmation likewise refuses on a non-affirmative answer; the
affirmative answers are exactly `y`/`yes` after strip-and-lowercase, so the empty or
any unparseable input refuses. -/
theorem C5_completed_terminal (del : Db → ManifestRecord → Except String Db)
    (st : RollbackState) (records : List ManifestRecord) (dryRun : Bool)
    (ov pr : String) :
    (st.status = "completed" → isAffirmative ov = false →
      rollback_command del st records dryRun ov pr = (false, st)) ∧
    (st.status ≠ "completed" → dryRun = false → isAffirmative pr = false →
      rollback_command del st records dryRun ov pr = (false, st)) ∧
    isAffirmative "" = false ∧ isAffirmative " Y " = true ∧
    isAffirmative "yes" = true ∧ isAffirmative "no!" = false := by
  refine ⟨?_, ?_, by decide, by decide, by decide, by decide⟩
  · intro h1 h2
    simp [rollback_command, h1, h2]
  · intro h1 h2 h3
    simp [rollback_command, h1, h2, h3]

/-- Witness for C5: a completed manifest with the empty override answer is refused
unchanged. -/
theorem C5_witness :
    rollback_command deleteById ⟨[⟨"projects", "p1"⟩], "completed"⟩
        [⟨"projects", "p1"⟩] false "" "y"
      = (false, ⟨[⟨"projects", "p1"⟩], "completed"⟩) :=
  (C5_completed_terminal deleteById ⟨[⟨"projects", "p1"⟩], "completed"⟩
      [⟨"projects", "p1"⟩] false "" "y").1 rfl (by decide)
